import Mathlib

/-!
Verification development for the social-mcp-agent repository.

This file gives a shallow embedding, in Lean 4, of the core of the
repository: the base agent lifecycle (src/src/agents, BaseAgent), the
content-analysis agent (ContentAnalysisAgent), and the middleware layer
(src/src/middleware/mcp-middleware.js: McpMiddleware, MessageRouter,
CapabilityRegistry), together with theorems settling the frozen claims.

Modelling conventions:
- JavaScript values are modelled by the inductive `JVal`; numbers are
  modelled as exact rationals (the numeric computations of this code use
  small rationals far from any double rounding boundary).
- A JavaScript Map is modelled as an association list with the Map
  semantics: `mapSet` updates an existing key in place, `mapDelete`
  removes the entry of a key, and insertion order is the list order.
- Code that throws is modelled in the `Except String` monad, the error
  carrying the message of the thrown Error.
- Logging, event-emitter wiring, timers, and the impure analysisId and
  timestamp fields (Date.now, Math.random) are not modelled; the counters
  `startedEvents` and `stoppedEvents` record the emitted lifecycle events.
-/

/-- A JavaScript value (numbers as exact rationals). -/
inductive JVal where
  | jnull : JVal
  | jbool (b : Bool) : JVal
  | jnum (q : ℚ) : JVal
  | jstr (s : String) : JVal
  | jobj (fields : List (String × JVal)) : JVal
  | jarr (elems : List JVal) : JVal

/-- Field access on an object value; `none` when absent or not an object. -/
def jvalGet : JVal → String → Option JVal
  | JVal.jobj fields, k => (fields.find? (fun e => e.1 = k)).map (fun e => e.2)
  | _, _ => none

/-- The result shape with a content field, as produced by the agent tool
handlers on success. -/
def hasContentField (v : JVal) : Bool :=
  (jvalGet v "content").isSome

/-- The structured error result shape: isError true together with a
content object holding a message field. -/
def isErrorResultShape (v : JVal) : Bool :=
  match jvalGet v "isError", jvalGet v "content" with
  | some (JVal.jbool true), some c => (jvalGet c "message").isSome
  | _, _ => false

/-- JavaScript Map.set: update the entry of an existing key in place,
otherwise append at the end (insertion order preserved). -/
def mapSet {α : Type} : List (String × α) → String → α → List (String × α)
  | [], k, v => [(k, v)]
  | (k', v') :: rest, k, v =>
    if k' = k then (k, v) :: rest else (k', v') :: mapSet rest k v

/-- JavaScript Map.get: the value of the first entry with the key. -/
def mapGet {α : Type} (m : List (String × α)) (k : String) : Option α :=
  (m.find? (fun e => e.1 = k)).map (fun e => e.2)

/-- JavaScript Map.has. -/
def mapHas {α : Type} (m : List (String × α)) (k : String) : Bool :=
  m.any (fun e => e.1 = k)

/-- JavaScript Map.delete: remove the entry of the key, if present. -/
def mapDelete {α : Type} : List (String × α) → String → List (String × α)
  | [], _ => []
  | (k', v') :: rest, k =>
    if k' = k then rest else (k', v') :: mapDelete rest k

/-- A tool or resource descriptor as passed to the registration methods:
name, description, handler, and the owning agent id stamped at
registration by BaseAgent (absent on a caller supplied descriptor). The
declarative inputSchema field is documentation only, never consulted by
the core, and is not modelled. -/
structure ToolDesc where
  name : String
  description : String
  handler : JVal → Except String JVal
  agentId : Option String := none

/-- The observable state of a BaseAgent: identity, the locally registered
tool and resource lists, the running flag, the queue-processor flag of the
content-analysis subclass, and counters for the emitted started and
stopped events. -/
structure AgentState where
  id : String
  tools : List ToolDesc := []
  resources : List ToolDesc := []
  running : Bool := false
  queueRunning : Bool := false
  startedEvents : Nat := 0
  stoppedEvents : Nat := 0

/-- BaseAgent.registerTool: validates name, description and handler,
then appends a copy of the descriptor extended with the agent id to the
local list and returns it (the JavaScript spread copy is modelled by the
pure structure update, the callers descriptor being untouched). -/
def agentRegisterTool (a : AgentState) (t : ToolDesc) :
    Except String (AgentState × ToolDesc) :=
  if t.name = "" ∨ t.description = "" then
    Except.error "Un outil doit avoir un nom, une description et un gestionnaire"
  else
    let t' : ToolDesc := { t with agentId := some a.id }
    Except.ok ({ a with tools := a.tools ++ [t'] }, t')

/-- BaseAgent.registerResource: same contract as agentRegisterTool, on
the resource list. -/
def agentRegisterResource (a : AgentState) (r : ToolDesc) :
    Except String (AgentState × ToolDesc) :=
  if r.name = "" ∨ r.description = "" then
    Except.error "Une ressource doit avoir un nom, une description et un gestionnaire"
  else
    let r' : ToolDesc := { r with agentId := some a.id }
    Except.ok ({ a with resources := a.resources ++ [r'] }, r')

/-- BaseAgent.start: a warning no-op when already running; otherwise runs
the (subclass supplied) initialization, flips running, and emits one
started event; an initialization error is rethrown. -/
def baseStart (initFn : AgentState → Except String AgentState)
    (a : AgentState) : Except String AgentState :=
  if a.running then Except.ok a
  else
    match initFn a with
    | Except.error e => Except.error e
    | Except.ok a' =>
      Except.ok { a' with running := true, startedEvents := a'.startedEvents + 1 }

/-- BaseAgent.stop: a warning no-op when not running; otherwise flips
running off and emits one stopped event. -/
def baseStop (a : AgentState) : AgentState :=
  if a.running then
    { a with running := false, stoppedEvents := a.stoppedEvents + 1 }
  else a

/-- JavaScript toLowerCase on one character, for the ASCII and Latin-1
uppercase ranges (the only characters this code base feeds it). -/
def jsToLowerChar (c : Char) : Char :=
  if 'A' ≤ c ∧ c ≤ 'Z' then Char.ofNat (c.toNat + 32)
  else if 'À' ≤ c ∧ c ≤ 'Þ' ∧ c ≠ '×' then Char.ofNat (c.toNat + 32)
  else c

/-- JavaScript String.prototype.toLowerCase (restricted as above). -/
def jsToLower (s : String) : String :=
  String.mk (s.toList.map jsToLowerChar)

/-- Worker for the whitespace split: some acc means a segment is being
accumulated (in reverse), none means the previous character was
whitespace and the segment before the run has been emitted. -/
def splitWsAux : List Char → Option (List Char) → List String
  | [], some acc => [String.mk acc.reverse]
  | [], none => [""]
  | c :: rest, some acc =>
    if c.isWhitespace then String.mk acc.reverse :: splitWsAux rest none
    else splitWsAux rest (some (c :: acc))
  | c :: rest, none =>
    if c.isWhitespace then splitWsAux rest none
    else splitWsAux rest (some [c])

/-- JavaScript split on the whitespace-run pattern: each maximal run of
whitespace is one separator, so a leading or trailing run contributes one
empty segment and interior runs contribute none. -/
def splitWs (s : String) : List String :=
  splitWsAux s.toList (some [])

/-- JavaScript String.prototype.includes: substring containment. -/
def strIncludes (hay needle : String) : Bool :=
  decide (needle.toList <:+: hay.toList)

/-- The positive word list of the sentiment simulation in analyzeText. -/
def positiveWords : List String :=
  ["bon", "super", "excellent", "génial", "fantastique", "heureux",
   "content", "aimer", "adorer"]

/-- The negative word list of the sentiment simulation in analyzeText. -/
def negativeWords : List String :=
  ["mauvais", "terrible", "horrible", "détester", "triste", "déçu",
   "nul", "médiocre", "pire"]

/-- The positive and negative scores of analyzeText: the text is
lowercased and split on whitespace runs, and a word counts toward a score
when it contains some word of the corresponding list. -/
def sentimentScores (text : String) : Nat × Nat :=
  let words := splitWs (jsToLower text)
  (words.countP (fun w => positiveWords.any (fun pw => strIncludes w pw)),
   words.countP (fun w => negativeWords.any (fun nw => strIncludes w nw)))

/-- The sentiment score: (pos - neg) / (pos + neg), or 0 when no word
matched (exact rational arithmetic; the doubles of the source stay far
from the rounding boundaries at these magnitudes). -/
def sentimentScore (text : String) : ℚ :=
  let (p, n) := sentimentScores text
  if p + n = 0 then 0 else ((p : ℚ) - (n : ℚ)) / ((p : ℚ) + (n : ℚ))

/-- A computed sentiment: score, label and the fixed confidence. -/
structure Sentiment where
  score : ℚ
  label : String
  confidence : ℚ

/-- The label of analyzeText: positive when the score exceeds 0.2,
negative when it is below -0.2, neutral otherwise. The threshold tests
are written on integers: for p + n > 0 the score (p - n) / (p + n)
exceeds 1/5 exactly when 5 (p - n) > p + n, and for p = n = 0 the score
is 0 and both strict tests are false, so the branches agree with the
source on every input (sentimentLabel_eq_score_test below proves this
equivalence against the rational score). -/
def sentimentLabel (text : String) : String :=
  let (p, n) := sentimentScores text
  if 5 * ((p : ℤ) - (n : ℤ)) > (p : ℤ) + (n : ℤ) then "positive"
  else if 5 * ((p : ℤ) - (n : ℤ)) < -((p : ℤ) + (n : ℤ)) then "negative"
  else "neutral"

/-- The sentiment of analyzeText, confidence fixed at 0.7. -/
def mkSentiment (text : String) : Sentiment :=
  { score := sentimentScore text
    label := sentimentLabel text
    confidence := 7/10 }

/-- A topic of the topic-extraction simulation: name and keyword list. -/
structure TopicDef where
  name : String
  keywords : List String

/-- The technology topic of the possibleTopics table of analyzeText. -/
def techTopicDef : TopicDef :=
  { name := "technologie"
    keywords := ["tech", "technologie", "ai", "ia", "intelligence artificielle",
                 "ordinateur", "smartphone", "application"] }

/-- The possibleTopics table of analyzeText. -/
def possibleTopics : List TopicDef :=
  [techTopicDef,
   { name := "politique",
     keywords := ["politique", "gouvernement", "élection", "président",
                  "ministre", "débat"] },
   { name := "sport",
     keywords := ["sport", "football", "tennis", "match", "équipe",
                  "championnat", "olympique", "joueur"] },
   { name := "divertissement",
     keywords := ["film", "série", "musique", "concert", "acteur",
                  "chanteur", "cinéma", "télévision"] },
   { name := "santé",
     keywords := ["santé", "médecine", "docteur", "hôpital", "maladie",
                  "traitement", "bien-être"] }]

/-- One extracted topic: name, confidence, and the matched keywords. -/
structure TopicResult where
  name : String
  confidence : ℚ
  matchedKeywords : List String

/-- Stable descending insertion by confidence (equivalent to the stable
JavaScript Array.prototype.sort with comparator b.confidence minus
a.confidence). -/
def insertByConf (x : TopicResult) : List TopicResult → List TopicResult
  | [] => [x]
  | y :: ys =>
    if x.confidence > y.confidence then x :: y :: ys
    else y :: insertByConf x ys

/-- Stable sort of topic results by descending confidence. -/
def sortByConfDesc (l : List TopicResult) : List TopicResult :=
  l.foldr insertByConf []

/-- The topic extraction of analyzeText: for each candidate topic, the
keywords contained in the lowercased text; a topic with at least one
match is kept with confidence min(matches/3, 1); the results are sorted
by descending confidence. -/
def extractTopicsOf (text : String) : List TopicResult :=
  let lowerText := jsToLower text
  sortByConfDesc (possibleTopics.filterMap (fun t =>
    let ms := t.keywords.filter (fun kw => strIncludes lowerText kw)
    if ms.length > 0 then
      some { name := t.name
             confidence := min ((ms.length : ℚ) / 3) 1
             matchedKeywords := ms }
    else none))

/-- The options of analyzeText with their default values (the language
option and the entity extraction flag are carried for fidelity; the
regex-based entity simulation itself is outside every claim and is not
modelled). -/
structure AnalyzeOptions where
  extractSentiment : Bool := true
  extractTopics : Bool := true
  extractEntities : Bool := true
  language : String := "fr"

/-- The result record of analyzeText (without the impure analysisId and
timestamp fields and without the unmodelled entity list). -/
structure TextAnalysis where
  textLength : Nat
  language : String
  sentiment : Option Sentiment
  topics : Option (List TopicResult)

/-- ContentAnalysisAgent.analyzeText on a text and options: sentiment and
topics are computed exactly when their flags are set; the modelled
computations cannot throw, so the result is always a success. -/
def analyzeText (text : String) (options : AnalyzeOptions := {}) : TextAnalysis :=
  { textLength := text.length
    language := options.language
    sentiment := if options.extractSentiment then some (mkSentiment text) else none
    topics := if options.extractTopics then some (extractTopicsOf text) else none }

/-- JavaScript truthiness of a value (NaN is not modelled). -/
def jvalTruthy : JVal → Bool
  | JVal.jnull => false
  | JVal.jbool b => b
  | JVal.jnum q => !(q = 0)
  | JVal.jstr s => !(s = "")
  | JVal.jobj _ => true
  | JVal.jarr _ => true

/-- The option spread of analyzeText: each default is overridden by the
corresponding key of the options object when present, read with
JavaScript truthiness; the language default fr is overridden by a string
value. -/
def parseAnalyzeOptions (optsVal : Option JVal) : AnalyzeOptions :=
  let get : String → Bool → Bool := fun k d =>
    match optsVal.bind (fun o => jvalGet o k) with
    | some v => jvalTruthy v
    | none => d
  { extractSentiment := get "extractSentiment" true
    extractTopics := get "extractTopics" true
    extractEntities := get "extractEntities" true
    language :=
      match optsVal.bind (fun o => jvalGet o "language") with
      | some (JVal.jstr s) => s
      | _ => "fr" }

/-- Encoding of a sentiment record as a protocol value. -/
def encodeSentiment (s : Sentiment) : JVal :=
  JVal.jobj [("score", JVal.jnum s.score), ("label", JVal.jstr s.label),
             ("confidence", JVal.jnum s.confidence)]

/-- Encoding of one extracted topic as a protocol value. -/
def encodeTopic (t : TopicResult) : JVal :=
  JVal.jobj [("name", JVal.jstr t.name), ("confidence", JVal.jnum t.confidence),
             ("matchedKeywords", JVal.jarr (t.matchedKeywords.map JVal.jstr))]

/-- Encoding of an optional field (null when the option was disabled). -/
def encodeOptField {α : Type} (f : α → JVal) : Option α → JVal
  | some a => f a
  | none => JVal.jnull

/-- Encoding of an analyzeText result as a protocol value. -/
def encodeAnalysis (a : TextAnalysis) : JVal :=
  JVal.jobj [("textLength", JVal.jnum a.textLength),
             ("language", JVal.jstr a.language),
             ("sentiment", encodeOptField encodeSentiment a.sentiment),
             ("topics", encodeOptField (fun l => JVal.jarr (l.map encodeTopic)) a.topics)]

/-- The analyze_text tool handler on protocol values: reads text and
options from the params object; when text is absent or not a string the
source throws a TypeError at text.substring before entering its try
block, so the throw propagates; otherwise the analysis runs and is
returned as a content result. -/
def analyzeTextJVal (params : JVal) : Except String JVal :=
  match jvalGet params "text" with
  | some (JVal.jstr text) =>
    let opts := parseAnalyzeOptions (jvalGet params "options")
    Except.ok (JVal.jobj [("content", encodeAnalysis (analyzeText text opts))])
  | _ => Except.error "Cannot read properties of undefined (reading \x27substring\x27)"

/-- The fixed object-detection payload of the analyzeImage simulation. -/
def analyzeImageObjects : JVal :=
  JVal.jarr [
    JVal.jobj [("name", JVal.jstr "personne"), ("confidence", JVal.jnum (92/100)),
      ("boundingBox", JVal.jobj [("x", JVal.jnum 10), ("y", JVal.jnum 20),
        ("width", JVal.jnum 100), ("height", JVal.jnum 200)])],
    JVal.jobj [("name", JVal.jstr "téléphone"), ("confidence", JVal.jnum (85/100)),
      ("boundingBox", JVal.jobj [("x", JVal.jnum 150), ("y", JVal.jnum 120),
        ("width", JVal.jnum 50), ("height", JVal.jnum 30)])],
    JVal.jobj [("name", JVal.jstr "tasse"), ("confidence", JVal.jnum (78/100)),
      ("boundingBox", JVal.jobj [("x", JVal.jnum 200), ("y", JVal.jnum 150),
        ("width", JVal.jnum 40), ("height", JVal.jnum 40)])]]

/-- The fixed scene-detection payload of the analyzeImage simulation. -/
def analyzeImageScenes : JVal :=
  JVal.jarr [
    JVal.jobj [("name", JVal.jstr "intérieur"), ("confidence", JVal.jnum (88/100))],
    JVal.jobj [("name", JVal.jstr "bureau"), ("confidence", JVal.jnum (75/100))],
    JVal.jobj [("name", JVal.jstr "urbain"), ("confidence", JVal.jnum (32/100))]]

/-- The analyze_image tool handler: the simulation always succeeds with
fixed payloads (the text-in-image and moderation payloads, also fixed
literals of the source, are elided here: no claim consults them). -/
def analyzeImageJVal (params : JVal) : Except String JVal :=
  let src := if (jvalGet params "imageUrl").isSome then "url" else "base64"
  Except.ok (JVal.jobj [("content", JVal.jobj
    [("imageSource", JVal.jstr src),
     ("objects", analyzeImageObjects),
     ("scenes", analyzeImageScenes)])])

/-- The analyze_post tool handler. The source composes analyzeText and
analyzeImage and adds hashtag, engagement-prediction and trend-detection
simulation fields; no claim depends on that payload, so the handler is
modelled as the text analysis wrapped in a content result, with the same
TypeError propagation when text is absent. -/
def analyzePostJVal (params : JVal) : Except String JVal :=
  match jvalGet params "text" with
  | some (JVal.jstr text) =>
    Except.ok (JVal.jobj [("content",
      JVal.jobj [("textAnalysis", encodeAnalysis (analyzeText text {}))])])
  | _ => Except.error "Cannot read properties of undefined (reading \x27substring\x27)"

/-- The content_analysis_results resource handler. The source paginates
the mutable analysisResults map of the agent; no claim depends on that
state, so the handler is modelled at the initial (empty) state of the
map, with the default limit 10 and offset 0. -/
def getAnalysisResultsJVal (_params : JVal) : Except String JVal :=
  Except.ok (JVal.jobj [("content", JVal.jobj
    [("total", JVal.jnum 0), ("offset", JVal.jnum 0), ("limit", JVal.jnum 10),
     ("results", JVal.jarr [])])])

/-- The analyze_text tool descriptor registered by the agent. -/
def analyzeTextDesc : ToolDesc :=
  { name := "analyze_text"
    description := "Analyse le contenu textuel pour en extraire le sentiment, les sujets et les entités"
    handler := analyzeTextJVal }

/-- The analyze_image tool descriptor registered by the agent. -/
def analyzeImageDesc : ToolDesc :=
  { name := "analyze_image"
    description := "Analyse le contenu des images pour en extraire les objets, scènes et texte"
    handler := analyzeImageJVal }

/-- The analyze_post tool descriptor registered by the agent. -/
def analyzePostDesc : ToolDesc :=
  { name := "analyze_post"
    description := "Analyse un post complet (texte et média) des réseaux sociaux"
    handler := analyzePostJVal }

/-- The content_analysis_results resource descriptor registered by the
agent. -/
def analysisResultsDesc : ToolDesc :=
  { name := "content_analysis_results"
    description := "Résultats des analyses de contenu précédentes"
    handler := getAnalysisResultsJVal }

/-- ContentAnalysisAgent.initialize: the base initialization (logging
only), then registration of the three tools and the one resource, in
source order. Note the source has no guard against running twice: every
call appends the four descriptors again. -/
def contentAnalysisInit (a : AgentState) : Except String AgentState := do
  let (a, _) ← agentRegisterTool a analyzeTextDesc
  let (a, _) ← agentRegisterTool a analyzeImageDesc
  let (a, _) ← agentRegisterTool a analyzePostDesc
  let (a, _) ← agentRegisterResource a analysisResultsDesc
  Except.ok a

/-- ContentAnalysisAgent.start: the base start, then the queue processor
is started (also when the base start was an already-running no-op). -/
def contentAnalysisStart (a : AgentState) : Except String AgentState :=
  match baseStart contentAnalysisInit a with
  | Except.error e => Except.error e
  | Except.ok a' => Except.ok { a' with queueRunning := true }

/-- ContentAnalysisAgent.stop: the queue processor is stopped first, then
the base stop runs. -/
def contentAnalysisStop (a : AgentState) : AgentState :=
  baseStop { a with queueRunning := false }

/-- A freshly constructed ContentAnalysisAgent (id content-analysis, no
capabilities, not running). -/
def freshContentAgent : AgentState := { id := "content-analysis" }

/-- Unwrap a success, with a default for the error case (used only to
name concrete states whose success is proved separately). -/
def exceptD {ε α : Type} (x : Except ε α) (d : α) : α :=
  match x with
  | Except.ok a => a
  | Except.error _ => d

/-- The agent state after the first start. -/
def caS1 : AgentState := exceptD (contentAnalysisStart freshContentAgent) freshContentAgent

/-- The agent state after the subsequent stop. -/
def caS2 : AgentState := contentAnalysisStop caS1

/-- The agent state after the second start. -/
def caS3 : AgentState := exceptD (contentAnalysisStart caS2) caS2

/-- The capability registry: two independent name-keyed maps, one for
tools and one for resources (resources reuse the descriptor shape). -/
structure CapabilityRegistry where
  tools : List (String × ToolDesc) := []
  resources : List (String × ToolDesc) := []

/-- CapabilityRegistry.registerTool: throws when the name (or the
handler, always present in this model) is missing; otherwise inserts or
overwrites the entry of that name. -/
def registryRegisterTool (r : CapabilityRegistry) (t : ToolDesc) :
    Except String CapabilityRegistry :=
  if t.name = "" then
    Except.error "Un outil doit avoir un nom et un gestionnaire"
  else Except.ok { r with tools := mapSet r.tools t.name t }

/-- CapabilityRegistry.registerResource: same contract on resources. -/
def registryRegisterResource (r : CapabilityRegistry) (t : ToolDesc) :
    Except String CapabilityRegistry :=
  if t.name = "" then
    Except.error "Une ressource doit avoir un nom et un gestionnaire"
  else Except.ok { r with resources := mapSet r.resources t.name t }

/-- CapabilityRegistry.unregisterTool: removes the entry if present,
no-op otherwise. -/
def registryUnregisterTool (r : CapabilityRegistry) (name : String) :
    CapabilityRegistry :=
  { r with tools := mapDelete r.tools name }

/-- CapabilityRegistry.unregisterResource. -/
def registryUnregisterResource (r : CapabilityRegistry) (name : String) :
    CapabilityRegistry :=
  { r with resources := mapDelete r.resources name }

/-- The tool list handler: the registry values in insertion order. -/
def listTools (r : CapabilityRegistry) : List ToolDesc :=
  r.tools.map (fun e => e.2)

/-- The resource list handler. -/
def listResources (r : CapabilityRegistry) : List ToolDesc :=
  r.resources.map (fun e => e.2)

/-- The tool-call handler the registry installs on the server: throws a
not-found Error for an absent name; otherwise awaits the tool handler,
catching any exception and converting it into the structured error
result shape (isError true, content.message) rather than rethrowing. -/
def toolCallHandler (r : CapabilityRegistry) (name : String) (params : JVal) :
    Except String JVal :=
  match mapGet r.tools name with
  | none => Except.error ("Outil \x27" ++ name ++ "\x27 non trouvé")
  | some tool =>
    match tool.handler params with
    | Except.ok result => Except.ok result
    | Except.error e =>
      Except.ok (JVal.jobj
        [("isError", JVal.jbool true),
         ("content", JVal.jobj [("message", JVal.jstr ("Erreur: " ++ e))])])

/-- The resource-get handler the registry installs on the server: throws
a not-found Error for an absent name; a handler exception is logged and
rethrown unchanged. -/
def resourceGetHandler (r : CapabilityRegistry) (name : String) (params : JVal) :
    Except String JVal :=
  match mapGet r.resources name with
  | none => Except.error ("Ressource \x27" ++ name ++ "\x27 non trouvée")
  | some res =>
    match res.handler params with
    | Except.ok v => Except.ok v
    | Except.error e => Except.error e

/-- A JSON-RPC message at the router boundary. -/
structure Message where
  id : JVal
  method : String
  params : JVal := JVal.jnull

/-- A JSON-RPC error response envelope as built by routeMessage. -/
def errorEnvelope (id : JVal) (code : ℚ) (msg : String) : JVal :=
  JVal.jobj [("jsonrpc", JVal.jstr "2.0"), ("id", id),
             ("error", JVal.jobj [("code", JVal.jnum code),
                                  ("message", JVal.jstr msg)])]

/-- MessageRouter.registerRoute: overwrites any existing handler of the
method name. -/
def registerRoute (routes : List (String × (Message → Except String JVal)))
    (method : String) (handler : Message → Except String JVal) :
    List (String × (Message → Except String JVal)) :=
  mapSet routes method handler

/-- MessageRouter.routeMessage: a total function, so every request yields
exactly one response and nothing is thrown. An unregistered method gives
the reserved method-not-found envelope (-32601) with the request id; a
handler exception is caught and gives the reserved internal-error
envelope (-32000) with the request id and the exception message; a
handler success is returned verbatim. -/
def routeMessage (routes : List (String × (Message → Except String JVal)))
    (msg : Message) : JVal :=
  match mapGet routes msg.method with
  | none =>
    errorEnvelope msg.id (-32601) ("Méthode \x27" ++ msg.method ++ "\x27 non trouvée")
  | some handler =>
    match handler msg with
    | Except.ok response => response
    | Except.error e => errorEnvelope msg.id (-32000) ("Erreur interne: " ++ e)

/-- The middleware state: the agent map and the capability registry. -/
structure McpMiddleware where
  agents : List (String × AgentState) := []
  registry : CapabilityRegistry := {}

/-- McpMiddleware.registerAgent: stores the agent under the id (replacing
a previous holder with a warning, without removing its registry entries),
then pushes every tool and resource of the agent into the registry. The
source mutates the agent map before the capability loop; on the success
path modelled here the end state is the same. -/
def middlewareRegisterAgent (mw : McpMiddleware) (id : String) (a : AgentState) :
    Except String McpMiddleware := do
  let reg ← a.tools.foldlM registryRegisterTool mw.registry
  let reg ← a.resources.foldlM registryRegisterResource reg
  Except.ok { agents := mapSet mw.agents id a, registry := reg }

/-- McpMiddleware.unregisterAgent: a warning no-op when the id is absent;
otherwise removes from the registry, by name, every tool and resource of
the currently mapped agent object, then drops the agent reference. -/
def middlewareUnregisterAgent (mw : McpMiddleware) (id : String) : McpMiddleware :=
  match mapGet mw.agents id with
  | none => mw
  | some a =>
    let reg := a.tools.foldl (fun r t => registryUnregisterTool r t.name) mw.registry
    let reg := a.resources.foldl (fun r t => registryUnregisterResource r t.name) reg
    { agents := mapDelete mw.agents id, registry := reg }

/-- A tool whose handler succeeds with a bare number, registrable since
it has a name and a handler. -/
def cexBadTool : ToolDesc :=
  { name := "t", description := "retourne un nombre brut"
    handler := fun _ => Except.ok (JVal.jnum 42) }

/-- A registry holding only cexBadTool. -/
def cexBadRegistry : CapabilityRegistry :=
  exceptD (registryRegisterTool {} cexBadTool) {}

/-- A route table whose handler answers with an empty object carrying no
id field. -/
def cexEchoRoutes : List (String × (Message → Except String JVal)) :=
  registerRoute [] "m" (fun _ => Except.ok (JVal.jobj []))

/-- A tool named x for the unregister scenario. -/
def cexToolX : ToolDesc :=
  { name := "x", description := "premier outil", handler := fun v => Except.ok v }

/-- A tool named y for the unregister scenario. -/
def cexToolY : ToolDesc :=
  { name := "y", description := "second outil", handler := fun v => Except.ok v }

/-- An agent with id a owning the tool x (built through registerTool, so
the descriptor carries agentId a). -/
def cexAgentA1 : AgentState :=
  exceptD ((agentRegisterTool { id := "a" } cexToolX).map (fun p => p.1)) { id := "a" }

/-- A second agent object with the same id a, owning the tool y. -/
def cexAgentA2 : AgentState :=
  exceptD ((agentRegisterTool { id := "a" } cexToolY).map (fun p => p.1)) { id := "a" }

/-- The middleware after registering cexAgentA1 under id a. -/
def cexMw1 : McpMiddleware := exceptD (middlewareRegisterAgent {} "a" cexAgentA1) {}

/-- The middleware after re-registering id a with cexAgentA2 (the
documented overwrite-with-warning path). -/
def cexMw2 : McpMiddleware := exceptD (middlewareRegisterAgent cexMw1 "a" cexAgentA2) cexMw1

/-- The middleware after unregistering id a. -/
def cexMw3 : McpMiddleware := middlewareUnregisterAgent cexMw2 "a"

/-- A descriptor whose handler always throws, for the error-propagation
scenarios. -/
def cexThrowingDesc : ToolDesc :=
  { name := "boom", description := "échoue toujours"
    handler := fun _ => Except.error "panne" }

/-- A registry holding cexThrowingDesc both as a tool and as a resource. -/
def cexThrowRegistry : CapabilityRegistry :=
  exceptD (do
    let r ← registryRegisterTool {} cexThrowingDesc
    registryRegisterResource r cexThrowingDesc) {}

/-- A first tool named dup for the duplicate-registration scenario. -/
def c8Tool1 : ToolDesc :=
  { name := "dup", description := "premier", handler := fun v => Except.ok v }

/-- A second, distinct tool also named dup. -/
def c8Tool2 : ToolDesc :=
  { name := "dup", description := "second", handler := fun _ => Except.ok JVal.jnull }

/-- The agent state produced by one run of the content-analysis
initialization on the fresh agent. -/
def caInit1 : AgentState :=
  exceptD (contentAnalysisInit freshContentAgent) freshContentAgent

/-- The state and stamped descriptor returned by registering the
analyze_text tool on the fresh agent. -/
def c10ToolPair : AgentState × ToolDesc :=
  exceptD (agentRegisterTool freshContentAgent analyzeTextDesc)
    (freshContentAgent, analyzeTextDesc)

/-- The state and stamped descriptor returned by registering the
content_analysis_results resource on the fresh agent. -/
def c10ResPair : AgentState × ToolDesc :=
  exceptD (agentRegisterResource freshContentAgent analysisResultsDesc)
    (freshContentAgent, analysisResultsDesc)

/-- The structured error result the tool-call handler builds from a
caught handler exception. -/
def errorResultOf (e : String) : JVal :=
  JVal.jobj [("isError", JVal.jbool true),
             ("content", JVal.jobj [("message", JVal.jstr ("Erreur: " ++ e))])]

theorem mapHas_cons {α : Type} (k' : String) (v' : α) (m : List (String × α)) (k : String) :
    mapHas ((k', v') :: m) k = (decide (k' = k) || mapHas m k) := rfl

theorem mapGet_cons {α : Type} (k' : String) (v' : α) (m : List (String × α)) (k : String) :
    mapGet ((k', v') :: m) k = if k' = k then some v' else mapGet m k := by
  by_cases h : k' = k
  · rw [if_pos h]
    unfold mapGet
    rw [List.find?_cons_of_pos _ (by simpa using h)]
    rfl
  · rw [if_neg h]
    unfold mapGet
    rw [List.find?_cons_of_neg _ (by simpa using h)]

theorem mapSet_cons {α : Type} (k' : String) (v' : α) (m : List (String × α)) (k : String) (v : α) :
    mapSet ((k', v') :: m) k v = if k' = k then (k, v) :: m else (k', v') :: mapSet m k v := rfl

theorem mapDelete_cons {α : Type} (k' : String) (v' : α) (m : List (String × α)) (k : String) :
    mapDelete ((k', v') :: m) k = if k' = k then m else (k', v') :: mapDelete m k := rfl

theorem mapHas_iff_mem_keys {α : Type} (m : List (String × α)) (k : String) :
    mapHas m k = true ↔ k ∈ m.map Prod.fst := by
  induction m with
  | nil => simp [mapHas]
  | cons e rest ih =>
    obtain ⟨k', v'⟩ := e
    rw [mapHas_cons]
    simp only [Bool.or_eq_true, decide_eq_true_eq, List.map_cons, List.mem_cons, ih]
    constructor
    · rintro (h | h)
      · exact Or.inl h.symm
      · exact Or.inr h
    · rintro (h | h)
      · exact Or.inl h.symm
      · exact Or.inr h

theorem mapGet_eq_none_of_has_false {α : Type} (m : List (String × α)) (k : String)
    (h : mapHas m k = false) : mapGet m k = none := by
  induction m with
  | nil => rfl
  | cons e rest ih =>
    obtain ⟨k', v'⟩ := e
    rw [mapHas_cons, Bool.or_eq_false_iff] at h
    rw [mapGet_cons, if_neg (by simpa using h.1)]
    exact ih h.2

theorem mapGet_mapSet_self {α : Type} (m : List (String × α)) (k : String) (v : α) :
    mapGet (mapSet m k v) k = some v := by
  induction m with
  | nil => simp [mapSet, mapGet_cons]
  | cons e rest ih =>
    obtain ⟨k', v'⟩ := e
    rw [mapSet_cons]
    by_cases h : k' = k
    · rw [if_pos h, mapGet_cons, if_pos rfl]
    · rw [if_neg h, mapGet_cons, if_neg h]
      exact ih

theorem mapHas_mapSet_self {α : Type} (m : List (String × α)) (k : String) (v : α) :
    mapHas (mapSet m k v) k = true := by
  induction m with
  | nil => simp [mapSet, mapHas_cons]
  | cons e rest ih =>
    obtain ⟨k', v'⟩ := e
    rw [mapSet_cons]
    by_cases h : k' = k
    · rw [if_pos h, mapHas_cons]
      simp
    · rw [if_neg h, mapHas_cons, ih]
      simp

theorem keys_mapSet_of_has {α : Type} (m : List (String × α)) (k : String) (v : α)
    (h : mapHas m k = true) : (mapSet m k v).map Prod.fst = m.map Prod.fst := by
  induction m with
  | nil => simp [mapHas] at h
  | cons e rest ih =>
    obtain ⟨k', v'⟩ := e
    rw [mapHas_cons, Bool.or_eq_true] at h
    rw [mapSet_cons]
    by_cases he : k' = k
    · rw [if_pos he, List.map_cons, List.map_cons, he]
    · rw [if_neg he, List.map_cons, List.map_cons]
      rcases h with h | h
      · exact absurd (of_decide_eq_true h) he
      · rw [ih h]

theorem keys_mapSet_of_has_false {α : Type} (m : List (String × α)) (k : String) (v : α)
    (h : mapHas m k = false) : (mapSet m k v).map Prod.fst = m.map Prod.fst ++ [k] := by
  induction m with
  | nil => simp [mapSet]
  | cons e rest ih =>
    obtain ⟨k', v'⟩ := e
    rw [mapHas_cons, Bool.or_eq_false_iff] at h
    rw [mapSet_cons, if_neg (by simpa using h.1), List.map_cons, List.map_cons, ih h.2,
      List.cons_append]

theorem length_mapSet_of_has {α : Type} (m : List (String × α)) (k : String) (v : α)
    (h : mapHas m k = true) : (mapSet m k v).length = m.length := by
  have hk := keys_mapSet_of_has m k v h
  have h1 : (mapSet m k v).length = ((mapSet m k v).map Prod.fst).length := by simp
  have h2 : m.length = (m.map Prod.fst).length := by simp
  rw [h1, hk, ← h2]

theorem mapDelete_sublist {α : Type} (m : List (String × α)) (k : String) :
    (mapDelete m k).Sublist m := by
  induction m with
  | nil => simp [mapDelete]
  | cons e rest ih =>
    obtain ⟨k', v'⟩ := e
    rw [mapDelete_cons]
    by_cases h : k' = k
    · rw [if_pos h]
      exact List.sublist_cons_self (k', v') rest
    · rw [if_neg h]
      exact List.Sublist.cons₂ (k', v') ih

theorem keys_nodup_mapDelete {α : Type} (m : List (String × α)) (k : String)
    (h : (m.map Prod.fst).Nodup) : ((mapDelete m k).map Prod.fst).Nodup :=
  List.Nodup.sublist (List.Sublist.map Prod.fst (mapDelete_sublist m k)) h

theorem mem_mapDelete {α : Type} (m : List (String × α)) (k : String)
    (hnd : (m.map Prod.fst).Nodup) (e : String × α) (he : e ∈ mapDelete m k) :
    e ∈ m ∧ e.1 ≠ k := by
  induction m with
  | nil => simp [mapDelete] at he
  | cons x rest ih =>
    obtain ⟨k', v'⟩ := x
    simp only [List.map_cons, List.nodup_cons] at hnd
    rw [mapDelete_cons] at he
    by_cases h : k' = k
    · rw [if_pos h] at he
      refine ⟨List.mem_cons_of_mem (k', v') he, ?_⟩
      intro hek
      apply hnd.1
      rw [h, ← hek]
      exact List.mem_map_of_mem Prod.fst he
    · rw [if_neg h] at he
      rcases List.mem_cons.mp he with he1 | he1
      · subst he1
        exact ⟨List.mem_cons_self (k', v') rest, h⟩
      · rcases ih hnd.2 he1 with ⟨h1, h2⟩
        exact ⟨List.mem_cons_of_mem (k', v') h1, h2⟩

theorem mapGet_mapDelete_self {α : Type} (m : List (String × α)) (k : String)
    (hnd : (m.map Prod.fst).Nodup) : mapGet (mapDelete m k) k = none := by
  cases hfind : List.find? (fun e => e.1 = k) (mapDelete m k) with
  | none => simp [mapGet, hfind]
  | some e =>
    have hmem := List.mem_of_find?_eq_some hfind
    have hkey : e.1 = k := by simpa using List.find?_some hfind
    exact absurd hkey (mem_mapDelete m k hnd e hmem).2

theorem foldl_unregisterTool_spec (ts : List ToolDesc) (r : CapabilityRegistry) :
    (ts.foldl (fun acc t => registryUnregisterTool acc t.name) r).tools
      = (ts.map ToolDesc.name).foldl mapDelete r.tools
    ∧ (ts.foldl (fun acc t => registryUnregisterTool acc t.name) r).resources
      = r.resources := by
  induction ts generalizing r with
  | nil => exact ⟨rfl, rfl⟩
  | cons t rest ih =>
    simp only [List.foldl_cons, List.map_cons]
    exact ih (registryUnregisterTool r t.name)

theorem foldl_unregisterResource_spec (ts : List ToolDesc) (r : CapabilityRegistry) :
    (ts.foldl (fun acc t => registryUnregisterResource acc t.name) r).resources
      = (ts.map ToolDesc.name).foldl mapDelete r.resources
    ∧ (ts.foldl (fun acc t => registryUnregisterResource acc t.name) r).tools
      = r.tools := by
  induction ts generalizing r with
  | nil => exact ⟨rfl, rfl⟩
  | cons t rest ih =>
    simp only [List.foldl_cons, List.map_cons]
    exact ih (registryUnregisterResource r t.name)

theorem mem_foldl_mapDelete {α : Type} (ns : List String) (m : List (String × α))
    (hnd : (m.map Prod.fst).Nodup) (e : String × α)
    (he : e ∈ ns.foldl mapDelete m) : e ∈ m ∧ e.1 ∉ ns := by
  induction ns generalizing m with
  | nil => exact ⟨he, by simp⟩
  | cons n rest ih =>
    simp only [List.foldl_cons] at he
    rcases ih (mapDelete m n) (keys_nodup_mapDelete m n hnd) he with ⟨h1, h2⟩
    rcases mem_mapDelete m n hnd e h1 with ⟨h3, h4⟩
    refine ⟨h3, ?_⟩
    intro hc
    rcases List.mem_cons.mp hc with hc | hc
    · exact h4 hc
    · exact h2 hc

theorem keys_nodup_foldl_mapDelete {α : Type} (ns : List String) (m : List (String × α))
    (hnd : (m.map Prod.fst).Nodup) :
    ((ns.foldl mapDelete m).map Prod.fst).Nodup := by
  induction ns generalizing m with
  | nil => exact hnd
  | cons n rest ih =>
    simp only [List.foldl_cons]
    exact ih (mapDelete m n) (keys_nodup_mapDelete m n hnd)

theorem mem_insertByConf (a x : TopicResult) (l : List TopicResult) :
    x ∈ insertByConf a l ↔ x = a ∨ x ∈ l := by
  induction l with
  | nil => simp [insertByConf]
  | cons y ys ih =>
    by_cases h : a.confidence > y.confidence
    · simp only [insertByConf, if_pos h, List.mem_cons]
    · simp only [insertByConf, if_neg h, List.mem_cons, ih]
      tauto

theorem mem_sortByConfDesc (x : TopicResult) (l : List TopicResult) :
    x ∈ sortByConfDesc l ↔ x ∈ l := by
  induction l with
  | nil => simp [sortByConfDesc]
  | cons y ys ih =>
    rw [show sortByConfDesc (y :: ys) = insertByConf y (sortByConfDesc ys) from rfl,
      mem_insertByConf, ih, List.mem_cons]

theorem label_test_eq (p n : Nat) :
    (if 5 * ((p : ℤ) - (n : ℤ)) > (p : ℤ) + (n : ℤ) then "positive"
     else if 5 * ((p : ℤ) - (n : ℤ)) < -((p : ℤ) + (n : ℤ)) then "negative"
     else "neutral")
    = (if (if p + n = 0 then (0 : ℚ) else ((p : ℚ) - (n : ℚ)) / ((p : ℚ) + (n : ℚ))) > 1/5
       then "positive"
       else if (if p + n = 0 then (0 : ℚ) else ((p : ℚ) - (n : ℚ)) / ((p : ℚ) + (n : ℚ))) < -(1/5)
       then "negative"
       else "neutral") := by
  by_cases hpn : p + n = 0
  · obtain ⟨hp, hn⟩ := Nat.add_eq_zero.mp hpn
    subst hp; subst hn
    norm_num
  · rw [if_neg hpn]
    have hd : (0 : ℚ) < (p : ℚ) + (n : ℚ) := by
      have : 0 < p + n := Nat.pos_of_ne_zero hpn
      exact_mod_cast this
    have h1 : ((1 : ℚ)/5 < ((p : ℚ) - (n : ℚ)) / ((p : ℚ) + (n : ℚ)))
        ↔ ((p : ℤ) + (n : ℤ) < 5 * ((p : ℤ) - (n : ℤ))) := by
      rw [lt_div_iff₀ hd]
      constructor
      · intro h
        have hq : (p : ℚ) + (n : ℚ) < 5 * ((p : ℚ) - (n : ℚ)) := by linarith
        exact_mod_cast hq
      · intro h
        have hq : (p : ℚ) + (n : ℚ) < 5 * ((p : ℚ) - (n : ℚ)) := by exact_mod_cast h
        linarith
    have h2 : (((p : ℚ) - (n : ℚ)) / ((p : ℚ) + (n : ℚ)) < -(1/5))
        ↔ (5 * ((p : ℤ) - (n : ℤ)) < -((p : ℤ) + (n : ℤ))) := by
      rw [div_lt_iff₀ hd]
      constructor
      · intro h
        have hq : 5 * ((p : ℚ) - (n : ℚ)) < -((p : ℚ) + (n : ℚ)) := by linarith
        exact_mod_cast hq
      · intro h
        have hq : 5 * ((p : ℚ) - (n : ℚ)) < -((p : ℚ) + (n : ℚ)) := by exact_mod_cast h
        linarith
    simp only [gt_iff_lt, h1, h2]

theorem sentimentLabel_eq_score_test (text : String) :
    sentimentLabel text =
      (if sentimentScore text > 1/5 then "positive"
       else if sentimentScore text < -(1/5) then "negative"
       else "neutral") := by
  unfold sentimentLabel sentimentScore
  exact label_test_eq (sentimentScores text).1 (sentimentScores text).2

theorem isErrorResultShape_errorResultOf (e : String) :
    isErrorResultShape (errorResultOf e) = true := rfl

theorem toolCallHandler_ok_branch (r : CapabilityRegistry) (name : String)
    (params : JVal) (tool : ToolDesc) (v : JVal)
    (h : mapGet r.tools name = some tool) (hv : tool.handler params = Except.ok v) :
    toolCallHandler r name params = Except.ok v := by
  simp only [toolCallHandler, h, hv]

theorem toolCallHandler_error_branch (r : CapabilityRegistry) (name : String)
    (params : JVal) (tool : ToolDesc) (e : String)
    (h : mapGet r.tools name = some tool) (he : tool.handler params = Except.error e) :
    toolCallHandler r name params = Except.ok (errorResultOf e) := by
  simp only [toolCallHandler, h, he, errorResultOf]

theorem toolCallHandler_get_none (r : CapabilityRegistry) (name : String)
    (params : JVal) (h : mapGet r.tools name = none) :
    toolCallHandler r name params
      = Except.error ("Outil \x27" ++ name ++ "\x27 non trouvé") := by
  simp only [toolCallHandler, h]

theorem resourceGetHandler_ok_branch (r : CapabilityRegistry) (name : String)
    (params : JVal) (res : ToolDesc) (v : JVal)
    (h : mapGet r.resources name = some res) (hv : res.handler params = Except.ok v) :
    resourceGetHandler r name params = Except.ok v := by
  simp only [resourceGetHandler, h, hv]

theorem resourceGetHandler_error_branch (r : CapabilityRegistry) (name : String)
    (params : JVal) (res : ToolDesc) (e : String)
    (h : mapGet r.resources name = some res) (he : res.handler params = Except.error e) :
    resourceGetHandler r name params = Except.error e := by
  simp only [resourceGetHandler, h, he]

theorem resourceGetHandler_get_none (r : CapabilityRegistry) (name : String)
    (params : JVal) (h : mapGet r.resources name = none) :
    resourceGetHandler r name params
      = Except.error ("Ressource \x27" ++ name ++ "\x27 non trouvée") := by
  simp only [resourceGetHandler, h]

theorem routeMessage_get_none (routes : List (String × (Message → Except String JVal)))
    (msg : Message) (h : mapGet routes msg.method = none) :
    routeMessage routes msg
      = errorEnvelope msg.id (-32601)
          ("Méthode \x27" ++ msg.method ++ "\x27 non trouvée") := by
  simp only [routeMessage, h]

theorem routeMessage_ok_branch (routes : List (String × (Message → Except String JVal)))
    (msg : Message) (hnd : Message → Except String JVal) (v : JVal)
    (h : mapGet routes msg.method = some hnd) (hv : hnd msg = Except.ok v) :
    routeMessage routes msg = v := by
  simp only [routeMessage, h, hv]

theorem routeMessage_error_branch (routes : List (String × (Message → Except String JVal)))
    (msg : Message) (hnd : Message → Except String JVal) (e : String)
    (h : mapGet routes msg.method = some hnd) (he : hnd msg = Except.error e) :
    routeMessage routes msg
      = errorEnvelope msg.id (-32000) ("Erreur interne: " ++ e) := by
  simp only [routeMessage, h, he]

theorem jvalGet_errorEnvelope_id (i : JVal) (c : ℚ) (m : String) :
    jvalGet (errorEnvelope i c m) "id" = some i := rfl

/-- C1 counterexample: the registry accepts a tool whose handler succeeds
with a bare number; invoking it returns that bare number, which has
neither the content shape nor the structured error shape, so the claimed
result-shape dichotomy fails for a registered tool. -/
theorem c1_counterexample :
    mapHas cexBadRegistry.tools "t" = true
    ∧ toolCallHandler cexBadRegistry "t" JVal.jnull = Except.ok (JVal.jnum 42)
    ∧ hasContentField (JVal.jnum 42) = false
    ∧ isErrorResultShape (JVal.jnum 42) = false :=
  ⟨rfl, rfl, rfl, rfl⟩

/-- C1 (amended): for every registered tool name and params value, the
tool-call handler never propagates a throw: it always returns a result;
an exception of the tool handler is caught and converted to the
structured error shape (isError true, content.message); a success value
of the tool handler is returned verbatim (so the content shape holds
exactly when the tool handler produced it). -/
theorem c1_tool_call_never_throws (r : CapabilityRegistry) (name : String)
    (params : JVal) (tool : ToolDesc) (h : mapGet r.tools name = some tool) :
    (∃ v, toolCallHandler r name params = Except.ok v)
    ∧ (∀ e, tool.handler params = Except.error e →
        toolCallHandler r name params = Except.ok (errorResultOf e)
        ∧ isErrorResultShape (errorResultOf e) = true)
    ∧ (∀ v, tool.handler params = Except.ok v →
        toolCallHandler r name params = Except.ok v) := by
  refine ⟨?_, ?_, ?_⟩
  · cases hh : tool.handler params with
    | ok v => exact ⟨v, toolCallHandler_ok_branch r name params tool v h hh⟩
    | error e =>
      exact ⟨errorResultOf e, toolCallHandler_error_branch r name params tool e h hh⟩
  · intro e he
    exact ⟨toolCallHandler_error_branch r name params tool e h he,
      isErrorResultShape_errorResultOf e⟩
  · intro v hv
    exact toolCallHandler_ok_branch r name params tool v h hv

/-- C1 witness: the amended theorem applied to the concrete registry
holding the bare-number tool. -/
theorem c1_tool_call_never_throws_witness :
    (∃ v, toolCallHandler cexBadRegistry "t" JVal.jnull = Except.ok v)
    ∧ (∀ e, cexBadTool.handler JVal.jnull = Except.error e →
        toolCallHandler cexBadRegistry "t" JVal.jnull = Except.ok (errorResultOf e)
        ∧ isErrorResultShape (errorResultOf e) = true)
    ∧ (∀ v, cexBadTool.handler JVal.jnull = Except.ok v →
        toolCallHandler cexBadRegistry "t" JVal.jnull = Except.ok v) :=
  c1_tool_call_never_throws cexBadRegistry "t" JVal.jnull cexBadTool rfl

/-- C2 counterexample: a handler that answers with an empty object; the
success path of routeMessage returns that response verbatim, so the
response carries no id field and the claimed invariant that every
response carries the original request id fails on the success path. -/
theorem c2_counterexample :
    routeMessage cexEchoRoutes { id := JVal.jnum 7, method := "m" } = JVal.jobj []
    ∧ jvalGet (routeMessage cexEchoRoutes { id := JVal.jnum 7, method := "m" }) "id"
        = none :=
  ⟨rfl, rfl⟩

/-- C2 (amended): routeMessage is total, so every request yields exactly
one response and nothing is thrown; an unregistered method yields the
reserved method-not-found envelope (-32601) carrying the original id; a
handler exception yields the reserved internal-error envelope (-32000)
carrying the exception message and the original id; the success path
returns the handler response verbatim, which carries the original id
only if the handler put it there. -/
theorem c2_route_message (routes : List (String × (Message → Except String JVal)))
    (msg : Message) :
    (mapGet routes msg.method = none →
      routeMessage routes msg
        = errorEnvelope msg.id (-32601)
            ("Méthode \x27" ++ msg.method ++ "\x27 non trouvée")
      ∧ jvalGet (routeMessage routes msg) "id" = some msg.id)
    ∧ (∀ hnd, mapGet routes msg.method = some hnd →
        (∀ e, hnd msg = Except.error e →
          routeMessage routes msg
            = errorEnvelope msg.id (-32000) ("Erreur interne: " ++ e)
          ∧ jvalGet (routeMessage routes msg) "id" = some msg.id)
        ∧ (∀ v, hnd msg = Except.ok v → routeMessage routes msg = v)) := by
  refine ⟨?_, ?_⟩
  · intro h
    have hr := routeMessage_get_none routes msg h
    refine ⟨hr, ?_⟩
    rw [hr]
    exact jvalGet_errorEnvelope_id msg.id (-32601) _
  · intro hnd h
    refine ⟨?_, ?_⟩
    · intro e he
      have hr := routeMessage_error_branch routes msg hnd e h he
      refine ⟨hr, ?_⟩
      rw [hr]
      exact jvalGet_errorEnvelope_id msg.id (-32000) _
    · intro v hv
      exact routeMessage_ok_branch routes msg hnd v h hv

/-- C2 witness: the amended theorem applied to an empty route table on
the method-not-found branch. -/
theorem c2_route_message_witness :
    routeMessage [] { id := JVal.jnum 7, method := "m" }
      = errorEnvelope (JVal.jnum 7) (-32601) ("Méthode \x27m\x27 non trouvée")
    ∧ jvalGet (routeMessage [] { id := JVal.jnum 7, method := "m" }) "id"
        = some (JVal.jnum 7) :=
  (c2_route_message [] { id := JVal.jnum 7, method := "m" }).1 rfl

theorem mapGet_singleton_self {α : Type} (k : String) (v : α) :
    mapGet [(k, v)] k = some v := by
  rw [mapGet_cons, if_pos rfl]

/-- C3: invoking a tool or getting a resource by a name absent from the
registry fails with the NotFoundError (the thrown Error carrying the
not-found message) and never reaches the caller as a throw: dispatched
through the message-routing boundary of the repository, the failure
comes back as a structured JSON-RPC error envelope, and routeMessage by
construction never throws. -/
theorem c3_not_found_enveloped (r : CapabilityRegistry) (name : String)
    (ht : mapHas r.tools name = false) (hr : mapHas r.resources name = false) :
    (∀ params, toolCallHandler r name params
        = Except.error ("Outil \x27" ++ name ++ "\x27 non trouvé"))
    ∧ (∀ params, resourceGetHandler r name params
        = Except.error ("Ressource \x27" ++ name ++ "\x27 non trouvée"))
    ∧ (∀ (method : String) (i pv : JVal),
        routeMessage [(method, fun m => toolCallHandler r name m.params)]
          { id := i, method := method, params := pv }
          = errorEnvelope i (-32000)
              ("Erreur interne: " ++ ("Outil \x27" ++ name ++ "\x27 non trouvé")))
    ∧ (∀ (method : String) (i pv : JVal),
        routeMessage [(method, fun m => resourceGetHandler r name m.params)]
          { id := i, method := method, params := pv }
          = errorEnvelope i (-32000)
              ("Erreur interne: " ++ ("Ressource \x27" ++ name ++ "\x27 non trouvée"))) := by
  have ht' := mapGet_eq_none_of_has_false r.tools name ht
  have hr' := mapGet_eq_none_of_has_false r.resources name hr
  refine ⟨fun params => toolCallHandler_get_none r name params ht',
          fun params => resourceGetHandler_get_none r name params hr',
          ?_, ?_⟩
  · intro method i pv
    exact routeMessage_error_branch _ _ _ _
      (mapGet_singleton_self method _)
      (toolCallHandler_get_none r name pv ht')
  · intro method i pv
    exact routeMessage_error_branch _ _ _ _
      (mapGet_singleton_self method _)
      (resourceGetHandler_get_none r name pv hr')

/-- C3 witness: the theorem applied to the empty registry and the name
x. -/
theorem c3_not_found_enveloped_witness :
    (∀ params, toolCallHandler {} "x" params
        = Except.error ("Outil \x27" ++ "x" ++ "\x27 non trouvé"))
    ∧ (∀ params, resourceGetHandler {} "x" params
        = Except.error ("Ressource \x27" ++ "x" ++ "\x27 non trouvée"))
    ∧ (∀ (method : String) (i pv : JVal),
        routeMessage [(method, fun m => toolCallHandler {} "x" m.params)]
          { id := i, method := method, params := pv }
          = errorEnvelope i (-32000)
              ("Erreur interne: " ++ ("Outil \x27" ++ "x" ++ "\x27 non trouvé")))
    ∧ (∀ (method : String) (i pv : JVal),
        routeMessage [(method, fun m => resourceGetHandler {} "x" m.params)]
          { id := i, method := method, params := pv }
          = errorEnvelope i (-32000)
              ("Erreur interne: " ++ ("Ressource \x27" ++ "x" ++ "\x27 non trouvée"))) :=
  c3_not_found_enveloped {} "x" rfl rfl

/-- C5: a resource handler exception propagates out of the resource-get
handler unchanged (the rethrown ResourceError), while for a tool the
same situation is caught and converted into a structured error result:
the asymmetry of the source is real. -/
theorem c5_resource_error_propagates (r : CapabilityRegistry) (name : String)
    (params : JVal) :
    (∀ res e, mapGet r.resources name = some res →
      res.handler params = Except.error e →
      resourceGetHandler r name params = Except.error e)
    ∧ (∀ tool e, mapGet r.tools name = some tool →
      tool.handler params = Except.error e →
      toolCallHandler r name params = Except.ok (errorResultOf e)
      ∧ isErrorResultShape (errorResultOf e) = true) :=
  ⟨fun res e h he => resourceGetHandler_error_branch r name params res e h he,
   fun tool e h he => ⟨toolCallHandler_error_branch r name params tool e h he,
     isErrorResultShape_errorResultOf e⟩⟩

/-- C5 witness: a registry holding a throwing descriptor both as a tool
and as a resource; the resource get propagates the throw, the tool call
converts it. -/
theorem c5_resource_error_propagates_witness :
    resourceGetHandler cexThrowRegistry "boom" JVal.jnull = Except.error "panne"
    ∧ (toolCallHandler cexThrowRegistry "boom" JVal.jnull
        = Except.ok (errorResultOf "panne")
      ∧ isErrorResultShape (errorResultOf "panne") = true) :=
  ⟨(c5_resource_error_propagates cexThrowRegistry "boom" JVal.jnull).1
      cexThrowingDesc "panne" rfl rfl,
   (c5_resource_error_propagates cexThrowRegistry "boom" JVal.jnull).2
      cexThrowingDesc "panne" rfl rfl⟩

/-- C4 counterexample: the content-analysis agent has no guard against
re-initialization after a stop: the sequence start, stop, start runs
contentAnalysisInit twice and the tool and resource lists after the
second start are the first lists duplicated, not identical to them. -/
theorem c4_counterexample :
    contentAnalysisStart freshContentAgent = Except.ok caS1
    ∧ contentAnalysisStop caS1 = caS2
    ∧ contentAnalysisStart caS2 = Except.ok caS3
    ∧ caS1.tools.map ToolDesc.name = ["analyze_text", "analyze_image", "analyze_post"]
    ∧ caS3.tools.map ToolDesc.name
        = ["analyze_text", "analyze_image", "analyze_post",
           "analyze_text", "analyze_image", "analyze_post"]
    ∧ caS1.resources.map ToolDesc.name = ["content_analysis_results"]
    ∧ caS3.resources.map ToolDesc.name
        = ["content_analysis_results", "content_analysis_results"]
    ∧ caS3.tools.map ToolDesc.name ≠ caS1.tools.map ToolDesc.name := by
  refine ⟨rfl, rfl, rfl, rfl, rfl, rfl, rfl, by decide⟩

/-- C4 (amended): start on an already-running agent is a warning no-op
that does not re-run initialization and emits no second started event;
but start after stop re-runs initialize unconditionally (there is no
initialized-once guard), so the start, stop, start sequence appends the
four capability descriptors again: the lists after the restart are the
first lists duplicated. -/
theorem c4_restart_reruns_init :
    caS3.tools.map ToolDesc.name
      = caS1.tools.map ToolDesc.name ++ caS1.tools.map ToolDesc.name
    ∧ caS3.resources.map ToolDesc.name
      = caS1.resources.map ToolDesc.name ++ caS1.resources.map ToolDesc.name
    ∧ caS1.startedEvents = 1
    ∧ caS3.startedEvents = 2
    ∧ (∀ initFn2, baseStart initFn2 caS1 = Except.ok caS1) := by
  refine ⟨by decide, by decide, rfl, rfl, fun initFn2 => rfl⟩

/-- C7: stopping a never-started agent is a no-op leaving the state (and
so the stopped-event count) unchanged; a successful first start flips
running and emits exactly one started event, and a second start in a row
is a warning no-op that does not consult any initialization function and
emits nothing. -/
theorem c7_lifecycle (initFn : AgentState → Except String AgentState)
    (a a' : AgentState) (hrun : a.running = false)
    (hinit : initFn a = Except.ok a') (hev : a'.startedEvents = a.startedEvents) :
    baseStop a = a
    ∧ ∃ s1, baseStart initFn a = Except.ok s1
        ∧ s1.running = true
        ∧ s1.startedEvents = a.startedEvents + 1
        ∧ (∀ initFn2, baseStart initFn2 s1 = Except.ok s1) := by
  constructor
  · simp [baseStop, hrun]
  · refine ⟨{ a' with running := true, startedEvents := a'.startedEvents + 1 },
      ?_, rfl, ?_, ?_⟩
    · simp [baseStart, hrun, hinit]
    · simp [hev]
    · intro initFn2
      simp [baseStart]

/-- C7 witness: the theorem applied to the fresh content-analysis agent
and its initialization. -/
theorem c7_lifecycle_witness :
    baseStop freshContentAgent = freshContentAgent
    ∧ ∃ s1, baseStart contentAnalysisInit freshContentAgent = Except.ok s1
        ∧ s1.running = true
        ∧ s1.startedEvents = freshContentAgent.startedEvents + 1
        ∧ (∀ initFn2, baseStart initFn2 s1 = Except.ok s1) :=
  c7_lifecycle contentAnalysisInit freshContentAgent caInit1 rfl rfl rfl

/-- C6 counterexample: re-registering the agent id a with a second agent
object (the documented overwrite-with-warning path) leaves the first
registry entries of the first object in place; unregistering a then
removes only the capabilities of the current object, so a tool owned by
a survives in
listTools after unregisterAgent. -/
theorem c6_counterexample :
    middlewareRegisterAgent {} "a" cexAgentA1 = Except.ok cexMw1
    ∧ middlewareRegisterAgent cexMw1 "a" cexAgentA2 = Except.ok cexMw2
    ∧ mapHas cexMw2.agents "a" = true
    ∧ middlewareUnregisterAgent cexMw2 "a" = cexMw3
    ∧ (listTools cexMw3.registry).map (fun t => (t.name, t.agentId))
        = [("x", some "a")]
    ∧ mapGet cexMw3.agents "a" = none :=
  ⟨rfl, rfl, rfl, rfl, rfl, rfl⟩

/-- C6 (amended): unregisterAgent removes, by name, every tool and
resource of the currently mapped agent object and drops the agent;
provided every registry entry owned by the id has its name among the
lists of that object (true whenever the id was registered once with its
own agent object), no entry owned by the id survives in listTools or
listResources; an absent id is a warning no-op leaving the middleware
unchanged. -/
theorem c6_unregister_removes_owned (mw : McpMiddleware) (id : String) :
    (∀ a, mapGet mw.agents id = some a →
      (mw.agents.map Prod.fst).Nodup →
      (mw.registry.tools.map Prod.fst).Nodup →
      (mw.registry.resources.map Prod.fst).Nodup →
      (∀ e ∈ mw.registry.tools, e.2.agentId = some id →
        e.1 ∈ a.tools.map ToolDesc.name) →
      (∀ e ∈ mw.registry.resources, e.2.agentId = some id →
        e.1 ∈ a.resources.map ToolDesc.name) →
      (∀ t ∈ listTools (middlewareUnregisterAgent mw id).registry,
        t.agentId ≠ some id)
      ∧ (∀ t ∈ listResources (middlewareUnregisterAgent mw id).registry,
        t.agentId ≠ some id)
      ∧ mapGet (middlewareUnregisterAgent mw id).agents id = none)
    ∧ (mapGet mw.agents id = none → middlewareUnregisterAgent mw id = mw) := by
  constructor
  · intro a ha hndA hndT hndR hcovT hcovR
    have hspecT := foldl_unregisterTool_spec a.tools mw.registry
    have hspecR := foldl_unregisterResource_spec a.resources
      (a.tools.foldl (fun acc t => registryUnregisterTool acc t.name) mw.registry)
    simp only [middlewareUnregisterAgent, ha, listTools, listResources]
    refine ⟨?_, ?_, mapGet_mapDelete_self mw.agents id hndA⟩
    · intro t ht
      rcases List.mem_map.mp ht with ⟨e, he, rfl⟩
      rw [hspecR.2, hspecT.1] at he
      rcases mem_foldl_mapDelete _ _ hndT e he with ⟨hmem, hnot⟩
      intro hid
      exact hnot (hcovT e hmem hid)
    · intro t ht
      rcases List.mem_map.mp ht with ⟨e, he, rfl⟩
      rw [hspecR.1, hspecT.2] at he
      rcases mem_foldl_mapDelete _ _ hndR e he with ⟨hmem, hnot⟩
      intro hid
      exact hnot (hcovR e hmem hid)
  · intro h
    simp only [middlewareUnregisterAgent, h]

/-- C6 witness: the amended theorem applied to a middleware where the id
a was registered once with its own agent object. -/
theorem c6_unregister_removes_owned_witness :
    (∀ t ∈ listTools (middlewareUnregisterAgent cexMw1 "a").registry,
      t.agentId ≠ some "a")
    ∧ (∀ t ∈ listResources (middlewareUnregisterAgent cexMw1 "a").registry,
      t.agentId ≠ some "a")
    ∧ mapGet (middlewareUnregisterAgent cexMw1 "a").agents "a" = none :=
  (c6_unregister_removes_owned cexMw1 "a").1 cexAgentA1 rfl (by decide) (by decide)
    (by decide) (by decide) (by decide)

/-- C8: registering two tools with the same non-empty name succeeds
twice, the later registration wins the lookup, the tool list length is
unaffected by the duplicate, and the name occurs exactly once among the
keys. -/
theorem c8_register_overwrites (r : CapabilityRegistry) (t1 t2 : ToolDesc)
    (hn : t2.name = t1.name) (h1 : t1.name ≠ "")
    (hnd : (r.tools.map Prod.fst).Nodup) :
    ∃ r1 r2, registryRegisterTool r t1 = Except.ok r1
      ∧ registryRegisterTool r1 t2 = Except.ok r2
      ∧ mapGet r2.tools t1.name = some t2
      ∧ r2.tools.length = r1.tools.length
      ∧ (r2.tools.map Prod.fst).count t1.name = 1 := by
  have h2 : t2.name ≠ "" := by rw [hn]; exact h1
  refine ⟨{ r with tools := mapSet r.tools t1.name t1 },
          { r with tools := mapSet (mapSet r.tools t1.name t1) t1.name t2 },
          ?_, ?_, ?_, ?_, ?_⟩
  · simp only [registryRegisterTool, if_neg h1]
  · simp only [registryRegisterTool, hn, if_neg h1]
  · exact mapGet_mapSet_self _ _ _
  · exact length_mapSet_of_has _ _ _ (mapHas_mapSet_self r.tools t1.name t1)
  · have hkeys2 : (mapSet (mapSet r.tools t1.name t1) t1.name t2).map Prod.fst
        = (mapSet r.tools t1.name t1).map Prod.fst :=
      keys_mapSet_of_has _ _ _ (mapHas_mapSet_self r.tools t1.name t1)
    have hnd1 : ((mapSet r.tools t1.name t1).map Prod.fst).Nodup := by
      cases hh : mapHas r.tools t1.name with
      | true =>
        rw [keys_mapSet_of_has _ _ _ hh]
        exact hnd
      | false =>
        rw [keys_mapSet_of_has_false _ _ _ hh]
        have hnotmem : t1.name ∉ r.tools.map Prod.fst := by
          intro hmem
          rw [← mapHas_iff_mem_keys] at hmem
          rw [hmem] at hh
          cases hh
        refine List.Nodup.append hnd (List.nodup_singleton _) ?_
        intro x hx hy
        rcases List.mem_singleton.mp hy with rfl
        exact hnotmem hx
    have hmem : t1.name ∈ (mapSet r.tools t1.name t1).map Prod.fst :=
      (mapHas_iff_mem_keys _ _).mp (mapHas_mapSet_self r.tools t1.name t1)
    rw [hkeys2]
    exact List.count_eq_one_of_mem hnd1 hmem

/-- C8 witness: the theorem applied to the empty registry and two
distinct descriptors sharing the name dup. -/
theorem c8_register_overwrites_witness :
    ∃ r1 r2, registryRegisterTool {} c8Tool1 = Except.ok r1
      ∧ registryRegisterTool r1 c8Tool2 = Except.ok r2
      ∧ mapGet r2.tools c8Tool1.name = some c8Tool2
      ∧ r2.tools.length = r1.tools.length
      ∧ (r2.tools.map Prod.fst).count c8Tool1.name = 1 :=
  c8_register_overwrites {} c8Tool1 c8Tool2 rfl (by decide) (by simp)

/-- C9: analyzeText with default options labels the sample text positive
(its positive word count 1 exceeds its negative word count 0), and for
every text containing a technology keyword the returned topics value is
non-null and contains an entry named technologie. -/
theorem c9_analyze_text (text : String)
    (h : techTopicDef.keywords.any (fun kw => strIncludes (jsToLower text) kw) = true) :
    ((analyzeText "Je suis très content de ce produit" {}).sentiment.map Sentiment.label
      = some "positive")
    ∧ (sentimentScores "Je suis très content de ce produit").1
        > (sentimentScores "Je suis très content de ce produit").2
    ∧ ∃ l, (analyzeText text {}).topics = some l
        ∧ ∃ tr ∈ l, tr.name = "technologie" := by
  refine ⟨by decide, by decide, extractTopicsOf text, rfl, ?_⟩
  have hex : ∃ kw ∈ techTopicDef.keywords, strIncludes (jsToLower text) kw = true := by
    simpa using List.any_eq_true.mp h
  rcases hex with ⟨kw, hkw, hinc⟩
  have hmemf : kw ∈ techTopicDef.keywords.filter
      (fun kw => strIncludes (jsToLower text) kw) :=
    List.mem_filter.mpr ⟨hkw, hinc⟩
  have hlen : (techTopicDef.keywords.filter
      (fun kw => strIncludes (jsToLower text) kw)).length > 0 :=
    List.length_pos.mpr (List.ne_nil_of_mem hmemf)
  refine ⟨{ name := techTopicDef.name
            confidence := min (((techTopicDef.keywords.filter
              (fun kw => strIncludes (jsToLower text) kw)).length : ℚ) / 3) 1
            matchedKeywords := techTopicDef.keywords.filter
              (fun kw => strIncludes (jsToLower text) kw) }, ?_, rfl⟩
  simp only [extractTopicsOf]
  apply (mem_sortByConfDesc _ _).mpr
  apply List.mem_filterMap.mpr
  refine ⟨techTopicDef, ?_, ?_⟩
  · simp [possibleTopics]
  · simp only [if_pos hlen]

/-- C9 witness: the theorem applied to the text produit technologique,
which contains the technology keyword tech. -/
theorem c9_analyze_text_witness :
    (techTopicDef.keywords.any
      (fun kw => strIncludes (jsToLower "produit technologique") kw) = true)
    ∧ (((analyzeText "Je suis très content de ce produit" {}).sentiment.map
        Sentiment.label = some "positive")
      ∧ (sentimentScores "Je suis très content de ce produit").1
          > (sentimentScores "Je suis très content de ce produit").2
      ∧ ∃ l, (analyzeText "produit technologique" {}).topics = some l
          ∧ ∃ tr ∈ l, tr.name = "technologie") :=
  ⟨by decide, c9_analyze_text "produit technologique" (by decide)⟩

/-- C10: BaseAgent.registerTool and BaseAgent.registerResource append to
the local list, and return, a copy of the given descriptor whose only
changed field is agentId, set to the registering agent id (the input
descriptor itself is untouched: every other field of the copy equals the
input field); consequently the all-entries-stamped invariant of the tool
and resource lists is preserved. -/
theorem c10_register_stamps_agent_id (a : AgentState) (t r : ToolDesc)
    (a1 a2 : AgentState) (t' r' : ToolDesc)
    (ht : agentRegisterTool a t = Except.ok (a1, t'))
    (hr : agentRegisterResource a r = Except.ok (a2, r')) :
    t'.name = t.name ∧ t'.description = t.description ∧ t'.handler = t.handler
    ∧ t'.agentId = some a.id
    ∧ a1.tools = a.tools ++ [t'] ∧ a1.resources = a.resources
    ∧ r'.name = r.name ∧ r'.description = r.description ∧ r'.handler = r.handler
    ∧ r'.agentId = some a.id
    ∧ a2.resources = a.resources ++ [r'] ∧ a2.tools = a.tools
    ∧ ((∀ u ∈ a.tools, u.agentId = some a.id) →
        ∀ u ∈ a1.tools, u.agentId = some a.id)
    ∧ ((∀ u ∈ a.resources, u.agentId = some a.id) →
        ∀ u ∈ a2.resources, u.agentId = some a.id) := by
  unfold agentRegisterTool at ht
  unfold agentRegisterResource at hr
  by_cases hv : t.name = "" ∨ t.description = ""
  · rw [if_pos hv] at ht
    exact absurd ht (by simp)
  · rw [if_neg hv] at ht
    by_cases hv2 : r.name = "" ∨ r.description = ""
    · rw [if_pos hv2] at hr
      exact absurd hr (by simp)
    · rw [if_neg hv2] at hr
      injection ht with hpt
      injection hr with hpr
      injection hpt with ha1 ht'
      injection hpr with ha2 hr'
      subst ha1; subst ht'; subst ha2; subst hr'
      refine ⟨rfl, rfl, rfl, rfl, rfl, rfl, rfl, rfl, rfl, rfl, rfl, rfl, ?_, ?_⟩
      · intro hinv u hu
        rcases List.mem_append.mp hu with hu | hu
        · exact hinv u hu
        · rcases List.mem_singleton.mp hu with rfl
          rfl
      · intro hinv u hu
        rcases List.mem_append.mp hu with hu | hu
        · exact hinv u hu
        · rcases List.mem_singleton.mp hu with rfl
          rfl

/-- C10 witness: the theorem applied to the fresh content-analysis agent
and its analyze_text tool and content_analysis_results resource
descriptors. -/
theorem c10_register_stamps_agent_id_witness :
    c10ToolPair.2.name = analyzeTextDesc.name
    ∧ c10ToolPair.2.description = analyzeTextDesc.description
    ∧ c10ToolPair.2.handler = analyzeTextDesc.handler
    ∧ c10ToolPair.2.agentId = some freshContentAgent.id
    ∧ c10ToolPair.1.tools = freshContentAgent.tools ++ [c10ToolPair.2]
    ∧ c10ToolPair.1.resources = freshContentAgent.resources
    ∧ c10ResPair.2.name = analysisResultsDesc.name
    ∧ c10ResPair.2.description = analysisResultsDesc.description
    ∧ c10ResPair.2.handler = analysisResultsDesc.handler
    ∧ c10ResPair.2.agentId = some freshContentAgent.id
    ∧ c10ResPair.1.resources = freshContentAgent.resources ++ [c10ResPair.2]
    ∧ c10ResPair.1.tools = freshContentAgent.tools
    ∧ ((∀ u ∈ freshContentAgent.tools, u.agentId = some freshContentAgent.id) →
        ∀ u ∈ c10ToolPair.1.tools, u.agentId = some freshContentAgent.id)
    ∧ ((∀ u ∈ freshContentAgent.resources, u.agentId = some freshContentAgent.id) →
        ∀ u ∈ c10ResPair.1.resources, u.agentId = some freshContentAgent.id) :=
  c10_register_stamps_agent_id freshContentAgent analyzeTextDesc analysisResultsDesc
    c10ToolPair.1 c10ResPair.1 c10ToolPair.2 c10ResPair.2 rfl rfl
